/-
Verification of the project-concatenation tool (src/main.py) against its
specification.  The Python source is shallowly embedded below: paths are
lists of path segments, the filesystem walk is a list of entries in
traversal order, file reads are `Except` values, and the output file is an
explicit `Option String` state threaded through the driver.
-/
import Mathlib

set_option maxRecDepth 8000

namespace ProjConcat

/-! ## Shell-glob matching (embedding of `fnmatch.fnmatch` as used by
`is_ignored`).  `fnmatch.translate` turns a pattern into an anchored regex:
`*` matches any (possibly empty) run of characters, `?` any single
character, `[...]` a character class (leading `!` negates, a `]` directly
after the opening bracket or the `!` is literal, an unterminated `[` is a
literal `[`, `a-b` inside a class is a range, a trailing `-` is literal);
every other character matches itself.  On POSIX `fnmatch` does no case
folding.  The matcher below implements exactly these rules; the `fuel`
argument only makes the recursion structural and strictly dominates the
call depth, which shrinks the combined pattern+string length at every
step. -/

/-- Split a class body at the first `]`, returning the chunk before it and
the remainder of the pattern after it; `none` when no `]` occurs. -/
def splitAtRBracket : List Char → Option (List Char × List Char)
  | [] => none
  | ']' :: rest => some ([], rest)
  | c :: cs =>
      match splitAtRBracket cs with
      | none => none
      | some (a, b) => some (c :: a, b)

/-- Parse a bracket class immediately after an opening `[`: returns
(negated, chunk, rest of pattern), or `none` for an unterminated class. -/
def parseBracket (cs : List Char) : Option (Bool × List Char × List Char) :=
  match cs with
  | '!' :: ']' :: r2 => (splitAtRBracket r2).map (fun p => (true, ']' :: p.1, p.2))
  | '!' :: cs1 => (splitAtRBracket cs1).map (fun p => (true, p.1, p.2))
  | ']' :: r2 => (splitAtRBracket r2).map (fun p => (false, ']' :: p.1, p.2))
  | _ => (splitAtRBracket cs).map (fun p => (false, p.1, p.2))

/-- Does character `c` match the (non-negated) class body `chunk`?
`a-b` denotes a range; a `-` that is not between two characters is a
literal. -/
def matchBracket (c : Char) : List Char → Bool
  | a :: '-' :: b :: rest =>
      (decide (a ≤ c) && decide (c ≤ b)) || matchBracket c rest
  | a :: rest => (c == a) || matchBracket c rest
  | [] => false

/-- Fueled glob matcher; fuel is consumed once per recursive call, and every
call strictly shrinks the total pattern+string length, so any fuel above
that total is enough. -/
def globAux : Nat → List Char → List Char → Bool
  | 0, _, _ => false
  | _ + 1, [], s => s.isEmpty
  | fuel + 1, '*' :: ps, s =>
      globAux fuel ps s ||
        (match s with
         | [] => false
         | _ :: ss => globAux fuel ('*' :: ps) ss)
  | fuel + 1, '?' :: ps, s =>
      (match s with
       | [] => false
       | _ :: ss => globAux fuel ps ss)
  | fuel + 1, '[' :: ps, s =>
      (match parseBracket ps with
       | none =>
           (match s with
            | '[' :: ss => globAux fuel ps ss
            | _ => false)
       | some (neg, chunk, rest) =>
           (match s with
            | [] => false
            | c :: ss => (matchBracket c chunk != neg) && globAux fuel rest ss))
  | fuel + 1, p :: ps, s =>
      (match s with
       | c :: ss => (p == c) && globAux fuel ps ss
       | [] => false)

/-- `fnmatch.fnmatch name pat` (POSIX: no case folding, full anchored
match). -/
def fnmatch (name pat : String) : Bool :=
  globAux (pat.length + name.length + 1) pat.toList name.toList

/-! ## Path utilities (embedding of the `pathlib` operations the source
uses).  An absolute path is the list of its segments from the root, so the
root is `[]`; `str` of an absolute path is `"/" ++ segments joined by "/"`,
and `str` of a relative path is the segments joined by `"/"` (or `"."` when
empty, as `str(p.relative_to(p))` is). -/

/-- Index of the last `.` in a list of characters. -/
def lastDotIdx : List Char → Option Nat
  | [] => none
  | c :: cs =>
      match lastDotIdx cs with
      | some i => some (i + 1)
      | none => if c == '.' then some 0 else none

/-- `PurePath.suffix` of a final path component: the part of the name from
its last dot, provided that dot is neither the first nor the last
character; `""` otherwise. -/
def pySuffix (name : String) : String :=
  match lastDotIdx name.toList with
  | some i =>
      if 0 < i ∧ i + 1 < name.toList.length then String.mk (name.toList.drop i) else ""
  | none => ""

/-- `PurePath.name`: the last segment of a path (`""` for the root). -/
def nameOf (path : List String) : String := (path.getLast?).getD ""

/-- `str` of a relative path given as segments. -/
def relStr (rel : List String) : String :=
  if rel.isEmpty then "." else String.intercalate "/" rel

/-- `str` of an absolute path given as segments from the root. -/
def absStr (p : List String) : String := "/" ++ String.intercalate "/" p

/-- `Path.relative_to`: strip `base` from the front of `fp`; `none` models
the `ValueError` raised when `fp` is not below `base`. -/
def relative_to (fp base : List String) : Option (List String) :=
  if base.isPrefixOf fp then some (fp.drop base.length) else none

/-! ## Ignore-rule locator, parser and matcher (src/main.py lines 8-39). -/

/-- `find_gitignore` (src/main.py lines 8-16).  A directory is the list of
its path segments with the innermost segment first, so the root is `[]` and
`parent` is `List.tail`; `current != current.parent` is exactly
"the list is nonempty", and the loop exits at the root without probing it.
`has d` models `(d / ".gitignore").exists()`. -/
def find_gitignore (has : List String → Bool) : List String → Option (List String)
  | [] => none
  | d :: rest => if has (d :: rest) then some (d :: rest) else find_gitignore has rest

/-- `parse_gitignore` (src/main.py lines 19-27) applied to the decoded text
of the rules file: strip each line, keep the non-empty ones that do not
start with `#`. -/
def parse_gitignore (content : String) : List String :=
  ((content.splitOn "\n").map String.trim).filter
    (fun l => !l.isEmpty && !l.startsWith "#")

/-- The pattern loop of `is_ignored` (src/main.py lines 33-39): return
`true` at the first pattern matching the relative-path string or the bare
name, `false` when the patterns are exhausted. -/
def ignoredLoop (rel name : String) : List String → Bool
  | [] => false
  | p :: ps => if fnmatch rel p || fnmatch name p then true else ignoredLoop rel name ps

/-- `is_ignored` (src/main.py lines 30-39).  `none` models the
`ValueError` that `relative_to` raises when `file_path` is not below
`base_dir`; for walked files this never happens. -/
def is_ignored (file_path : List String) (ignore_patterns : List String)
    (base_dir : List String) : Option Bool :=
  (relative_to file_path base_dir).map fun rel =>
    ignoredLoop (relStr rel) (nameOf file_path) ignore_patterns

/-! ## Extension table and per-file processing (src/main.py lines 42-156). -/

/-- The `comment_syntax` dictionary (src/main.py lines 43-120), verbatim. -/
def comment_syntax : List (String × String) :=
  [ (".py", "#"), (".r", "#"), (".jl", "#"), (".sh", "#"), (".bash", "#"),
    (".ps1", "#"), (".bat", "REM"), (".pl", "#"), (".awk", "#"),
    (".html", "-->"), (".htm", "-->"), (".xml", "-->"), (".xhtml", "-->"),
    (".js", "//"), (".jsx", "//"), (".ts", "//"), (".tsx", "//"),
    (".css", "*/"), (".scss", "//"), (".less", "//"), (".java", "//"),
    (".c", "//"), (".h", "//"), (".cpp", "//"), (".cc", "//"),
    (".cxx", "//"), (".c++", "//"), (".cs", "//"), (".go", "//"),
    (".swift", "//"), (".kt", "//"), (".kts", "//"), (".dart", "//"),
    (".php", "//"), (".rb", "#"), (".lua", "--"), (".scala", "//"),
    (".groovy", "//"), (".vbs", "'"), (".fs", "//"), (".fsx", "//"),
    (".hs", "--"), (".ml", "(* *)"), (".mli", "(* *)"), (".clj", ";"),
    (".cljs", ";"), (".lisp", ";"), (".lsp", ";"), (".scm", ";"),
    (".rkt", ";"), (".erl", "%"), (".ex", "#"), (".exs", "#"),
    (".json", ""), (".yaml", "#"), (".yml", "#"), (".ini", ";"),
    (".toml", "#"), (".cfg", "#"), (".conf", "#"), (".properties", "#"),
    (".sql", "--"), (".md", "-->"), (".markdown", "-->"), (".rst", ".."),
    (".tex", "%"), (".latex", "%"), (".make", "#"), (".mk", "#"),
    ("Makefile", "#"), (".dockerfile", "#"), ("Dockerfile", "#"),
    (".env", "#"), (".gitattributes", "#"), (".gitignore", "#"),
    (".editorconfig", "#") ]

/-- `key in comment_syntax` (Python dict membership). -/
def inTable (k : String) : Bool := comment_syntax.any (fun kv => kv.1 == k)

/-- `comment_syntax.get(key, "#")` (Python dict lookup with default). -/
def getMarker (k : String) : String := (List.lookup k comment_syntax).getD "#"

/-- `end_comment` (src/main.py line 137): always the empty string. -/
def endComment : String := ""

/-- The extensions given the special header shape (src/main.py line 142). -/
def markupExts : List String := [".html", ".css", ".xml", ".md"]

/-- One entry yielded by `input_path.rglob("*")`, identified by its path
relative to the input directory; `isFile` is `file_path.is_file()` and
`content` is the outcome of `file_path.read_text(...)` (`Except.error` when
reading raises). -/
structure Entry where
  relPath : List String
  isFile : Bool
  content : Except String String

/-- `file_path.name` of a walked entry. -/
def entryName (inputPath : List String) (e : Entry) : String :=
  nameOf (inputPath ++ e.relPath)

/-- `str.lower()` restricted to ASCII, applied characterwise.  Only the
lookup keys — all ASCII — can be affected by lowering here, so this agrees
with Python's `.lower()` on every observation the program makes. -/
def strLower (s : String) : String := String.mk (s.toList.map Char.toLower)

/-- `ext = file_path.suffix.lower()` (src/main.py line 135). -/
def entryExt (inputPath : List String) (e : Entry) : String :=
  strLower (pySuffix (entryName inputPath e))

/-- `str(file_path)` of a walked entry. -/
def entryPathStr (inputPath : List String) (e : Entry) : String :=
  absStr (inputPath ++ e.relPath)

/-- The header line written for an included file (src/main.py lines
142-147): markup extensions get `start File: path end_comment`, everything
else repeats the opening marker. -/
def headerLine (start fpStr : String) (isMarkup : Bool) : String :=
  if isMarkup then start ++ " File: " ++ fpStr ++ " " ++ endComment ++ "\n"
  else start ++ " File: " ++ fpStr ++ " " ++ start ++ "\n"

/-- What follows the header (src/main.py lines 149-156): the decoded
content plus a blank line, or — when `read_text` raises — the inline
failure comment. -/
def bodyPart (start fpStr : String) (content : Except String String) : String :=
  match content with
  | Except.ok c => c ++ "\n\n"
  | Except.error e =>
      start ++ " Could not read file: " ++ fpStr ++ " - Error: " ++ e ++ " "
        ++ endComment ++ "\n\n"

/-- Everything the loop body (src/main.py lines 130-156) writes for one
walked entry: `none` when the entry is skipped (not a regular file, ignored,
or key-less), otherwise the header+body block.  The relative-path string
fed to the matcher is computed directly from `relPath`, which equals
`str(file_path.relative_to(input_path))` for every walked entry (lemma
`is_ignored_under` below). -/
def fileBlock (ignore_patterns : List String) (inputPath : List String)
    (e : Entry) : Option String :=
  if e.isFile then
    if ignoredLoop (relStr e.relPath) (entryName inputPath e) ignore_patterns then none
    else
      if !inTable (entryExt inputPath e) && !inTable (entryName inputPath e) then none
      else
        some (headerLine (getMarker (entryExt inputPath e)) (entryPathStr inputPath e)
                ( markupExts.contains (entryExt inputPath e))
              ++ bodyPart (getMarker (entryExt inputPath e)) (entryPathStr inputPath e)
                  e.content)
  else none

/-- The full text written to the output file by the walk loop. -/
def concatBody (ignore_patterns : List String) (inputPath : List String)
    (entries : List Entry) : String :=
  String.join (entries.filterMap (fileBlock ignore_patterns inputPath))

/-! ## The driver (src/main.py lines 42, 122-156) and the CLI front end
(lines 159-183). -/

/-- The filesystem as seen by the gitignore machinery: `hasGitignore d`
models `(d / ".gitignore").exists()` and `readGitignore d` the
open/read/decode of that file (`Except.error` when it raises), with `d` a
directory in innermost-segment-first form. -/
structure GitFS where
  hasGitignore : List String → Bool
  readGitignore : List String → Except String String

/-- `concatenate_project` with the output-file state made explicit:
`out0` is the content of the output file before the run (`none` when it
does not exist), and the result pairs the content after the run with the
error of an uncaught exception, if one was raised.  Mirroring the source
order, the rules file is located and read (lines 126-127) before the
output file is opened for writing (line 129), so an exception from the
rules-file read leaves the output file untouched; opening truncates, and
the walk then writes `concatBody`. -/
def concatenate_project (gfs : GitFS) (inputPath : List String)
    (entries : List Entry) (out0 : Option String) :
    Option String × Option String :=
  match find_gitignore gfs.hasGitignore inputPath.reverse with
  | some d =>
      match gfs.readGitignore d with
      | Except.error e => (out0, some e)
      | Except.ok content =>
          (some (concatBody (parse_gitignore content) inputPath entries), none)
  | none => (some (concatBody [] inputPath entries), none)

/-- Does `main` print the suffix warning (src/main.py line 178)? -/
def warnsTxt (name : String) : Bool := pySuffix name != ".txt"

/-- `Path.with_suffix(".txt")` on a final name component: replace the
existing suffix, or append when there is none; `none` models the
`ValueError` raised for an empty name. -/
def with_suffix_txt (name : String) : Option String :=
  if name = "" then none
  else if pySuffix name = "" then some (name ++ ".txt")
  else some (String.mk (name.toList.take (name.length - (pySuffix name).length)) ++ ".txt")

/-- The output-name fixup in `main` (src/main.py lines 178-180). -/
def fix_output_name (name : String) : Option String :=
  if pySuffix name = ".txt" then some name else with_suffix_txt name

/-! ## Helper lemmas -/

theorem ignoredLoop_eq_any (rel name : String) (ps : List String) :
    ignoredLoop rel name ps = ps.any (fun p => fnmatch rel p || fnmatch name p) := by
  induction ps with
  | nil => rfl
  | cons p ps ih =>
      simp only [ignoredLoop, List.any_cons]
      cases h : (fnmatch rel p || fnmatch name p) <;> simp [h, ih]

theorem join_foldl (l : List String) (s : String) :
    l.foldl (fun r x => r ++ x) s = s ++ String.join l := by
  induction l generalizing s with
  | nil => simp [String.join, String.append_empty]
  | cons a l ih =>
      show l.foldl (fun r x => r ++ x) (s ++ a) = s ++ String.join (a :: l)
      rw [ih]
      show s ++ a ++ String.join l = s ++ List.foldl (fun r x => r ++ x) ("" ++ a) l
      rw [ih, String.empty_append, String.append_assoc]

theorem join_cons (a : String) (l : List String) :
    String.join (a :: l) = a ++ String.join l := by
  show List.foldl (fun r x => r ++ x) ("" ++ a) l = a ++ String.join l
  rw [join_foldl, String.empty_append]

theorem join_append (l1 l2 : List String) :
    String.join (l1 ++ l2) = String.join l1 ++ String.join l2 := by
  induction l1 with
  | nil => simp [String.join, String.empty_append]
  | cons a l ih =>
      rw [List.cons_append, join_cons, join_cons, ih, String.append_assoc]

/-- For every walked entry, the relative-path string the pipeline feeds to
the pattern loop is exactly what `is_ignored` computes from the absolute
path and the base directory. -/
theorem is_ignored_under (inputPath rel ps : List String) :
    is_ignored (inputPath ++ rel) ps inputPath
      = some (ignoredLoop (relStr rel) (nameOf (inputPath ++ rel)) ps) := by
  have hpre : inputPath.isPrefixOf (inputPath ++ rel) = true :=
    List.isPrefixOf_iff_prefix.mpr (List.prefix_append inputPath rel)
  rw [is_ignored, relative_to, if_pos hpre, List.drop_left]
  rfl

/-- C1: a file contributes a header+content block to the output iff it is a
regular file, no pattern matches its relative path or bare name, and its
lowercased extension or exact name is a key of the extension table. -/
theorem C1_inclusion_iff (ignore_patterns inputPath : List String) (e : Entry) :
    (fileBlock ignore_patterns inputPath e).isSome = true ↔
      (e.isFile = true
        ∧ (∀ p ∈ ignore_patterns,
            fnmatch (relStr e.relPath) p = false ∧ fnmatch (entryName inputPath e) p = false)
        ∧ (inTable (entryExt inputPath e) = true ∨ inTable (entryName inputPath e) = true)) := by
  unfold fileBlock
  cases hf : e.isFile with
  | false => simp [hf]
  | true =>
      cases hi : ignoredLoop (relStr e.relPath) (entryName inputPath e) ignore_patterns with
      | true =>
          rw [ignoredLoop_eq_any, List.any_eq_true] at hi
          obtain ⟨p, hp, hfp⟩ := hi
          simp only [if_true, if_pos rfl]
          simp only [Option.isSome_none, Bool.false_eq_true, false_iff]
          rintro ⟨-, hall, -⟩
          obtain ⟨h1, h2⟩ := hall p hp
          rw [h1, h2] at hfp
          cases hfp
      | false =>
          rw [ignoredLoop_eq_any, List.any_eq_false] at hi
          cases ht1 : inTable (entryExt inputPath e) with
          | true => simp_all [Bool.or_eq_true]
          | false =>
              cases ht2 : inTable (entryName inputPath e) with
              | true => simp_all [Bool.or_eq_true]
              | false => simp_all [Bool.or_eq_true]

/-- C1 witness: a file matching none of the rules and with a known
extension is included. -/
theorem C1_witness :
    (fileBlock ["*.log"] ["proj"] (Entry.mk ["app.py"] true (Except.ok "print(1)"))).isSome
      = true := by
  refine (C1_inclusion_iff ["*.log"] ["proj"]
      (Entry.mk ["app.py"] true (Except.ok "print(1)"))).mpr ⟨rfl, ?_, ?_⟩
  · intro p hp
    rcases List.mem_singleton.mp hp with rfl
    exact ⟨by decide, by decide⟩
  · left; decide

/-- C2 counterexample: for `index.html` the code emits the table marker
`-->` as the opening token and nothing before the newline — not the
claimed `<!-- ... -->` symmetric-comment header. -/
theorem C2_counterexample :
    fileBlock [] ["proj"] (Entry.mk ["index.html"] true (Except.ok "<p>hi</p>"))
      = some ("--> File: /proj/index.html \n" ++ "<p>hi</p>\n\n")
    ∧ ("--> File: /proj/index.html \n" ++ "<p>hi</p>\n\n")
      ≠ ("<!-- File: /proj/index.html -->\n" ++ "<p>hi</p>\n\n") := by
  exact ⟨by decide, by decide⟩

/-- C2 amended: for the fixed extension subset `.html/.css/.xml/.md` the
header's closing token is the (empty) `end_comment`, so the opening marker
is not repeated; every other included file repeats the opening marker as
the closing token. -/
theorem C2_amended_header_shape (ignore_patterns inputPath : List String) (e : Entry)
    (b : String) (h : fileBlock ignore_patterns inputPath e = some b) :
    endComment = ""
    ∧ ( markupExts.contains (entryExt inputPath e) = true →
        ∃ rest, b = getMarker (entryExt inputPath e) ++ " File: " ++ entryPathStr inputPath e
            ++ " " ++ endComment ++ "\n" ++ rest)
    ∧ ( markupExts.contains (entryExt inputPath e) = false →
        ∃ rest, b = getMarker (entryExt inputPath e) ++ " File: " ++ entryPathStr inputPath e
            ++ " " ++ getMarker (entryExt inputPath e) ++ "\n" ++ rest) := by
  unfold fileBlock at h
  split_ifs at h with h1 h2 h3
  injection h with hb
  refine ⟨rfl, ?_, ?_⟩
  · intro hm
    refine ⟨bodyPart (getMarker (entryExt inputPath e)) (entryPathStr inputPath e) e.content, ?_⟩
    rw [← hb, headerLine, if_pos hm]
  · intro hm
    refine ⟨bodyPart (getMarker (entryExt inputPath e)) (entryPathStr inputPath e) e.content, ?_⟩
    rw [← hb, headerLine, if_neg (by rw [hm]; exact Bool.false_ne_true)]

/-- C2 amended witness: the `.html` header at a concrete input. -/
theorem C2_amended_witness :
    markupExts.contains (entryExt ["proj"] (Entry.mk ["index.html"] true (Except.ok "x"))) = true
    ∧ ∃ rest, ("--> File: /proj/index.html \n" ++ "x\n\n")
        = getMarker (entryExt ["proj"] (Entry.mk ["index.html"] true (Except.ok "x")))
          ++ " File: "
          ++ entryPathStr ["proj"] (Entry.mk ["index.html"] true (Except.ok "x"))
          ++ " " ++ endComment ++ "\n" ++ rest :=
  ⟨by decide,
    (C2_amended_header_shape [] ["proj"] (Entry.mk ["index.html"] true (Except.ok "x"))
        ("--> File: /proj/index.html \n" ++ "x\n\n") (by decide)).2.1 (by decide)⟩

/-- If the locator returns a directory, it is a nonempty ancestor-or-self
of the start (a suffix, in innermost-first form), it contains the rules
file, and every strictly closer ancestor-or-self does not. -/
theorem find_gitignore_some (has : List String → Bool) (p : List String) :
    ∀ d, find_gitignore has p = some d →
      d ≠ [] ∧ d <:+ p ∧ has d = true
        ∧ ∀ q, d <:+ q → q <:+ p → q ≠ d → has q = false := by
  induction p with
  | nil => intro d h; simp [find_gitignore] at h
  | cons a p' ih =>
      intro d h
      simp only [find_gitignore] at h
      by_cases hp : has (a :: p') = true
      · rw [if_pos hp] at h
        injection h with hd
        subst hd
        refine ⟨List.cons_ne_nil a p', List.suffix_refl _, hp, ?_⟩
        intro q hdq hqp hne
        exact absurd (hqp.eq_of_length (Nat.le_antisymm hqp.length_le hdq.length_le)) hne
      · rw [if_neg hp] at h
        obtain ⟨h1, h2, h3, h4⟩ := ih d h
        refine ⟨h1, h2.trans (List.suffix_cons a p'), h3, ?_⟩
        intro q hdq hqp hne
        rcases List.suffix_cons_iff.mp hqp with rfl | hq
        · exact Bool.not_eq_true _ ▸ Bool.of_not_eq_true hp
        · exact h4 q hdq hq hne

/-- The locator returns nothing exactly when no nonempty ancestor-or-self
of the start contains the rules file — the root (`[]`) is never probed. -/
theorem find_gitignore_none_iff (has : List String → Bool) (p : List String) :
    find_gitignore has p = none ↔ ∀ q, q <:+ p → q ≠ [] → has q = false := by
  induction p with
  | nil =>
      simp only [find_gitignore, true_iff]
      intro q hq hne
      exact absurd (List.suffix_nil.mp hq) hne
  | cons a p' ih =>
      simp only [find_gitignore]
      by_cases hp : has (a :: p') = true
      · rw [if_pos hp]
        refine iff_of_false (by simp) ?_
        intro hall
        have := hall (a :: p') (List.suffix_refl _) (List.cons_ne_nil a p')
        rw [hp] at this
        cases this
      · rw [if_neg hp, ih]
        constructor
        · intro hall q hq hne
          rcases List.suffix_cons_iff.mp hq with rfl | hq'
          · exact Bool.of_not_eq_true hp
          · exact hall q hq' hne
        · intro hall q hq hne
          exact hall q (hq.trans (List.suffix_cons a p')) hne

/-- C3 counterexample: when only the filesystem root contains the rules
file, the locator still reports "not found" — the root is never probed,
contradicting "including the root". -/
theorem C3_counterexample :
    find_gitignore (fun d => d.isEmpty) ["a"] = none
    ∧ (fun d : List String => d.isEmpty) [] = true :=
  ⟨rfl, rfl⟩

/-- C3 amended: the locator probes the starting directory and its
ancestors from closest to farthest, excluding the filesystem root, and
returns the first hit; it returns "not found" exactly when no ancestor
other than the root contains the rules file, and it never fails. -/
theorem C3_amended_locator (has : List String → Bool) (p : List String) :
    (∀ d, find_gitignore has p = some d →
        d ≠ [] ∧ d <:+ p ∧ has d = true
          ∧ ∀ q, d <:+ q → q <:+ p → q ≠ d → has q = false)
    ∧ (find_gitignore has p = none ↔ ∀ q, q <:+ p → q ≠ [] → has q = false) :=
  ⟨find_gitignore_some has p, find_gitignore_none_iff has p⟩

/-- C3 amended witness: with the rules file present only at `/a` (and at
the root), a search starting from `/a/b` stops at `/a`; applying the
characterization at that hit confirms it holds the rules file. -/
theorem C3_amended_witness :
    (fun d : List String => decide (d.length = 1)) ["a"] = true :=
  (((C3_amended_locator (fun d => decide (d.length = 1)) ["b", "a"]).1
      ["a"] (by decide)).2).2.1

/-- C4: an eligible file whose read fails does not abort the run — its
block is the header followed by a header-style comment carrying the error
text in place of the content, and the entries before and after it are
processed exactly as they would be otherwise. -/
theorem C4_unreadable_recovery (ignore_patterns inputPath : List String)
    (pre post : List Entry) (rp : List String) (err : String)
    (hni : ignoredLoop (relStr rp) (nameOf (inputPath ++ rp)) ignore_patterns = false)
    (ht : inTable (strLower (pySuffix (nameOf (inputPath ++ rp)))) = true
          ∨ inTable (nameOf (inputPath ++ rp)) = true) :
    concatBody ignore_patterns inputPath (pre ++ Entry.mk rp true (Except.error err) :: post)
      = concatBody ignore_patterns inputPath pre
        ++ (headerLine (getMarker (strLower (pySuffix (nameOf (inputPath ++ rp)))))
              (absStr (inputPath ++ rp))
              ( markupExts.contains (strLower (pySuffix (nameOf (inputPath ++ rp)))))
            ++ (getMarker (strLower (pySuffix (nameOf (inputPath ++ rp))))
                ++ " Could not read file: " ++ absStr (inputPath ++ rp)
                ++ " - Error: " ++ err ++ " " ++ endComment ++ "\n\n"))
        ++ concatBody ignore_patterns inputPath post := by
  have hblk : fileBlock ignore_patterns inputPath (Entry.mk rp true (Except.error err))
      = some (headerLine (getMarker (strLower (pySuffix (nameOf (inputPath ++ rp)))))
            (absStr (inputPath ++ rp))
            ( markupExts.contains (strLower (pySuffix (nameOf (inputPath ++ rp)))))
          ++ (getMarker (strLower (pySuffix (nameOf (inputPath ++ rp))))
              ++ " Could not read file: " ++ absStr (inputPath ++ rp)
              ++ " - Error: " ++ err ++ " " ++ endComment ++ "\n\n")) := by
    unfold fileBlock
    rw [if_pos rfl]
    have hni' : ignoredLoop (relStr rp) (entryName inputPath (Entry.mk rp true (Except.error err)))
        ignore_patterns = false := hni
    rw [hni']
    simp only [Bool.false_eq_true, if_false]
    have hcond : (!inTable (entryExt inputPath (Entry.mk rp true (Except.error err)))
        && !inTable (entryName inputPath (Entry.mk rp true (Except.error err)))) = false := by
      rcases ht with h | h
      · show (!inTable (strLower (pySuffix (nameOf (inputPath ++ rp)))) && _) = false
        rw [h]
        rfl
      · show (_ && !inTable (nameOf (inputPath ++ rp))) = false
        rw [h, Bool.not_true, Bool.and_false]
    rw [hcond]
    rfl
  rw [concatBody, List.filterMap_append, List.filterMap_cons, hblk, join_append,
    join_cons, ← String.append_assoc]
  rfl

/-- C4 witness: a permission failure on `a.py` is recorded inline and the
following file is still emitted. -/
theorem C4_witness :
    ignoredLoop (relStr ["a.py"]) (nameOf (["p"] ++ ["a.py"])) [] = false
    ∧ concatBody [] ["p"]
        [Entry.mk ["a.py"] true (Except.error "Permission denied"),
          Entry.mk ["b.py"] true (Except.ok "x")]
      = concatBody [] ["p"] []
        ++ (headerLine (getMarker (strLower (pySuffix (nameOf (["p"] ++ ["a.py"])))))
              (absStr (["p"] ++ ["a.py"]))
              ( markupExts.contains (strLower (pySuffix (nameOf (["p"] ++ ["a.py"])))))
            ++ (getMarker (strLower (pySuffix (nameOf (["p"] ++ ["a.py"]))))
                ++ " Could not read file: " ++ absStr (["p"] ++ ["a.py"])
                ++ " - Error: " ++ "Permission denied" ++ " " ++ endComment ++ "\n\n"))
        ++ concatBody [] ["p"] [Entry.mk ["b.py"] true (Except.ok "x")] :=
  ⟨rfl, C4_unreadable_recovery [] ["p"] [] [Entry.mk ["b.py"] true (Except.ok "x")]
      ["a.py"] "Permission denied" rfl (Or.inl (by decide))⟩

/-- C5 counterexample: for the output argument `out.md` the program
produces `out.txt` — the existing suffix is replaced, not appended to. -/
theorem C5_counterexample :
    fix_output_name "out.md" = some "out.txt"
    ∧ fix_output_name "out.md" ≠ some ("out.md" ++ ".txt") := by
  exact ⟨by decide, by decide⟩

/-- C5 amended: a name whose suffix is exactly `.txt` is used unchanged and
without a warning; any other (nonempty) name gets a warning and has its
suffix, if any, replaced by `.txt` — the extension is appended only when
the name has no suffix at all. -/
theorem C5_amended_suffix_fixup (name : String) (h : name ≠ "") :
    (pySuffix name = ".txt" → fix_output_name name = some name ∧ warnsTxt name = false)
    ∧ (pySuffix name ≠ ".txt" →
        warnsTxt name = true
        ∧ fix_output_name name
            = some (String.mk (name.toList.take (name.length - (pySuffix name).length))
                ++ ".txt")) := by
  constructor
  · intro hs
    refine ⟨by rw [fix_output_name, if_pos hs], ?_⟩
    rw [warnsTxt, hs]
    rfl
  · intro hs
    refine ⟨by rw [warnsTxt, bne_iff_ne]; exact hs, ?_⟩
    rw [fix_output_name, if_neg hs, with_suffix_txt, if_neg h]
    by_cases h0 : pySuffix name = ""
    · rw [if_pos h0, h0]
      show some (name ++ ".txt") = some (String.mk (name.toList.take (name.length - 0)) ++ ".txt")
      rw [Nat.sub_zero]
      have : name.toList.take name.length = name.toList := List.take_length name.toList
      rw [this]
      rfl
    · rw [if_neg h0]

/-- C5 amended witness: `report.doc` becomes `report.txt`, with a
warning. -/
theorem C5_amended_witness :
    ("report.doc" : String) ≠ ""
    ∧ warnsTxt "report.doc" = true
    ∧ fix_output_name "report.doc"
        = some (String.mk ("report.doc".toList.take
            ("report.doc".length - (pySuffix "report.doc").length)) ++ ".txt") :=
  ⟨by decide,
    ((C5_amended_suffix_fixup "report.doc" (by decide)).2 (by decide)).1,
    ((C5_amended_suffix_fixup "report.doc" (by decide)).2 (by decide)).2⟩

/-- C6: for a file under the base directory the matcher never fails, it
returns `true` exactly when some pattern glob-matches the base-relative
path string or the bare file name, and a matching head pattern decides the
result regardless of the remaining patterns (first-match short-circuit). -/
theorem C6_matcher_semantics (file_path base_dir ignore_patterns : List String)
    (h : base_dir <+: file_path) :
    (is_ignored file_path ignore_patterns base_dir).isSome = true
    ∧ (is_ignored file_path ignore_patterns base_dir = some true ↔
        ∃ p ∈ ignore_patterns,
          (fnmatch (relStr (file_path.drop base_dir.length)) p = true
            ∨ fnmatch (nameOf file_path) p = true))
    ∧ (∀ p ps,
        (fnmatch (relStr (file_path.drop base_dir.length)) p = true
          ∨ fnmatch (nameOf file_path) p = true) →
        is_ignored file_path (p :: ps) base_dir = some true) := by
  have hpre : base_dir.isPrefixOf file_path = true := List.isPrefixOf_iff_prefix.mpr h
  have hrel : relative_to file_path base_dir = some (file_path.drop base_dir.length) := by
    rw [relative_to, if_pos hpre]
  refine ⟨?_, ?_, ?_⟩
  · rw [is_ignored, hrel]
    rfl
  · rw [is_ignored, hrel]
    show some (ignoredLoop _ _ ignore_patterns) = some true ↔ _
    rw [Option.some_inj, ignoredLoop_eq_any, List.any_eq_true]
    constructor
    · rintro ⟨p, hp, hfp⟩
      exact ⟨p, hp, Bool.or_eq_true_iff.mp hfp⟩
    · rintro ⟨p, hp, hfp⟩
      exact ⟨p, hp, Bool.or_eq_true_iff.mpr hfp⟩
  · intro p ps hp
    rw [is_ignored, hrel]
    show some (ignoredLoop _ _ (p :: ps)) = some true
    rw [ignoredLoop, if_pos (Bool.or_eq_true_iff.mpr hp)]

/-- C6 witness: `*.log` flags `/b/x.log`, whatever patterns follow. -/
theorem C6_witness :
    (["b"] : List String) <+: ["b", "x.log"]
    ∧ is_ignored ["b", "x.log"] ["*.log"] ["b"] = some true :=
  ⟨List.prefix_append ["b"] ["x.log"],
    (C6_matcher_semantics ["b", "x.log"] ["b"] ["*.log"]
        (List.prefix_append ["b"] ["x.log"])).2.2 "*.log" []
      (Or.inl (by decide))⟩

/-- C7: the ignore/keep decision is unchanged by permuting the rule set or
by duplicating a pattern already in it. -/
theorem C7_order_irrelevance (file_path base_dir : List String)
    (ps qs : List String) (hperm : ps.Perm qs) :
    is_ignored file_path ps base_dir = is_ignored file_path qs base_dir
    ∧ ∀ p ∈ ps, is_ignored file_path (p :: ps) base_dir = is_ignored file_path ps base_dir := by
  have key : ∀ f : String → Bool, ps.any f = qs.any f := by
    intro f
    rw [Bool.eq_iff_iff, List.any_eq_true, List.any_eq_true]
    constructor
    · rintro ⟨x, hx, hfx⟩
      exact ⟨x, hperm.mem_iff.mp hx, hfx⟩
    · rintro ⟨x, hx, hfx⟩
      exact ⟨x, hperm.mem_iff.mpr hx, hfx⟩
  constructor
  · rw [is_ignored, is_ignored]
    cases hr : relative_to file_path base_dir with
    | none => rfl
    | some rel =>
        simp only [Option.map]
        rw [ignoredLoop_eq_any, ignoredLoop_eq_any, key]
  · intro p hp
    rw [is_ignored, is_ignored]
    cases hr : relative_to file_path base_dir with
    | none => rfl
    | some rel =>
        simp only [Option.map]
        rw [ignoredLoop_eq_any, ignoredLoop_eq_any, List.any_cons]
        cases hf : (fnmatch (relStr rel) p || fnmatch (nameOf file_path) p) with
        | false => rw [Bool.false_or]
        | true =>
            rw [Bool.true_or]
            exact congrArg some ((@List.any_eq_true _
                (fun q => fnmatch (relStr rel) q || fnmatch (nameOf file_path) q) ps).mpr
              ⟨p, hp, hf⟩).symm

/-- C7 witness: swapping two patterns leaves the decision unchanged. -/
theorem C7_witness :
    (["*.log", "build"] : List String).Perm ["build", "*.log"]
    ∧ is_ignored ["p", "f.log"] ["*.log", "build"] ["p"]
        = is_ignored ["p", "f.log"] ["build", "*.log"] ["p"] :=
  ⟨List.Perm.swap "build" "*.log" [],
    (C7_order_irrelevance ["p", "f.log"] ["p"] ["*.log", "build"] ["build", "*.log"]
        (List.Perm.swap "build" "*.log" [])).1⟩

/-- C8: with the filesystem state and traversal order fixed, a second run
of the driver — starting from whatever output file the first run left
behind — produces a byte-identical output file. -/
theorem C8_two_run_determinism (gfs : GitFS) (inputPath : List String)
    (entries : List Entry) (out0 : Option String) :
    (concatenate_project gfs inputPath entries
        (concatenate_project gfs inputPath entries out0).1).1
      = (concatenate_project gfs inputPath entries out0).1 := by
  unfold concatenate_project
  cases hf : find_gitignore gfs.hasGitignore inputPath.reverse with
  | none => rfl
  | some d =>
      cases hr : gfs.readGitignore d with
      | error e => simp [hr]
      | ok content => simp [hr]

/-- C9: when the rules file is found but reading it fails, the exception
propagates uncaught and the run ends before the output file is opened, so
whatever output file existed before the run is left exactly as it was. -/
theorem C9_rules_read_error_aborts (gfs : GitFS) (inputPath : List String)
    (entries : List Entry) (out0 : Option String) (d : List String) (e : String)
    (h1 : find_gitignore gfs.hasGitignore inputPath.reverse = some d)
    (h2 : gfs.readGitignore d = Except.error e) :
    concatenate_project gfs inputPath entries out0 = (out0, some e) := by
  unfold concatenate_project
  simp only [h1, h2]

/-- C9 witness: a failing rules-file read leaves the pre-existing output
content `old` untouched. -/
theorem C9_witness :
    find_gitignore (GitFS.mk (fun _ => true) (fun _ => Except.error "boom")).hasGitignore
        (["proj"] : List String).reverse = some ["proj"]
    ∧ (GitFS.mk (fun _ => true) (fun _ => Except.error "boom")).readGitignore ["proj"]
        = Except.error "boom"
    ∧ concatenate_project (GitFS.mk (fun _ => true) (fun _ => Except.error "boom"))
        ["proj"] [] (some "old") = (some "old", some "boom") :=
  ⟨rfl, rfl,
    C9_rules_read_error_aborts (GitFS.mk (fun _ => true) (fun _ => Except.error "boom"))
      ["proj"] [] (some "old") ["proj"] "boom" rfl rfl⟩

/-- No key of the extension table has the suffix `.txt`. -/
theorem comment_keys_no_txt :
    comment_syntax.all (fun kv => pySuffix kv.1 != ".txt") = true := by decide

/-- C10: a file whose name carries the `.txt` suffix — in particular the
output file, whose name the CLI forces to end in `.txt` — is never given a
content block, because neither `.txt` nor such a name is a table key. -/
theorem C10_output_self_exclusion (ignore_patterns inputPath : List String) (e : Entry)
    (h : pySuffix (entryName inputPath e) = ".txt") :
    fileBlock ignore_patterns inputPath e = none := by
  have hext : inTable (entryExt inputPath e) = false := by
    rw [entryExt, h]
    decide
  have hname : inTable (entryName inputPath e) = false := by
    cases hn : inTable (entryName inputPath e) with
    | false => rfl
    | true =>
        rw [inTable] at hn
        obtain ⟨kv, hkv, hbeq⟩ := List.any_eq_true.mp hn
        have hk : kv.1 = entryName inputPath e := eq_of_beq hbeq
        have h2 := List.all_eq_true.mp comment_keys_no_txt kv hkv
        rw [bne_iff_ne, hk, h] at h2
        exact absurd rfl h2
  unfold fileBlock
  cases hf : e.isFile with
  | false => rfl
  | true =>
      cases hi : ignoredLoop (relStr e.relPath) (entryName inputPath e) ignore_patterns with
      | true => rfl
      | false => simp [hext, hname]

/-- C10 witness: `output.txt` inside the walked tree is skipped. -/
theorem C10_witness :
    pySuffix (entryName ["p"] (Entry.mk ["output.txt"] true (Except.ok "x"))) = ".txt"
    ∧ fileBlock [] ["p"] (Entry.mk ["output.txt"] true (Except.ok "x")) = none :=
  ⟨by decide,
    C10_output_self_exclusion [] ["p"] (Entry.mk ["output.txt"] true (Except.ok "x"))
      (by decide)⟩

end ProjConcat
